import Mathlib

/-!
Verification development for the titantron match-boundary-detection timeline
core (frontend Svelte components: DetectionTimeline / DetectionFilmstrip /
detection detail view / player page, and the analysis-job poller).

Embedding conventions:
* JavaScript numbers are modelled as exact rationals (`ℚ`); `Math.floor` is
  `Int.floor`, `Math.max`/`Math.min` are `max`/`min`.
* Tick counts and thumbnail indices that are integral in the source are
  modelled as `ℤ`/`ℕ`.
* Imperative loops are modelled as structurally recursive functions carrying
  the mutable locals explicitly.
* Definitions suffixed `Spec` are modelled from the specification's words (for
  refinement comparison); everything else is translated from the source.
-/

/-- A point of the audio energy spectrum as delivered in `AnalysisResults.audio_spectrum`:
time `t` in seconds and a `music` level. -/
structure SpectrumPoint where
  t : ℚ
  music : ℚ
deriving DecidableEq

/-- An output point of the spectrum downsampler: normalized position `x` and
the bucket's `value`. -/
structure OutPoint where
  x : ℚ
  value : ℚ
deriving DecidableEq

/-- Total list indexing with a default value, as JavaScript array indexing
(used only in range in the embedded code, like the source). -/
def listAt {α : Type} : List α → ℕ → α → α
  | [], _, d => d
  | a :: _, 0, _ => a
  | _ :: rest, i + 1, d => listAt rest i d

/-- Inner `while` loop of `downsampleSpectrum` (part_005 lines 118-125 /
part_009 lines 135-141): starting from scan index `si`, consume points whose
`t` is below `bucketEnd`, folding `max` over those with `t ≥ bucketStart`.
The list argument is the suffix of the spectrum from index `si`. -/
def scanBucketAux (bucketStart bucketEnd : ℚ) :
    List SpectrumPoint → ℕ → ℚ → ℕ × ℚ
  | [], si, maxVal => (si, maxVal)
  | p :: rest, si, maxVal =>
    if p.t < bucketEnd then
      scanBucketAux bucketStart bucketEnd rest (si + 1)
        (if bucketStart ≤ p.t then max maxVal p.music else maxVal)
    else (si, maxVal)

/-- The inner loop acting on the full spectrum at scan index `si`. -/
def scanBucket (spec : List SpectrumPoint) (bucketStart bucketEnd : ℚ)
    (si : ℕ) (maxVal : ℚ) : ℕ × ℚ :=
  scanBucketAux bucketStart bucketEnd (spec.drop si) si maxVal

/-- Peek-back guard after the inner `while` loop (part_005 line 127 /
part_009 line 143): `if (si > 0 && spec[si - 1].t >= bucketEnd) si--`,
re-exposing the last consumed point to the next bucket. -/
def nextScanIndex (spec : List SpectrumPoint) (bucketEnd : ℚ) (si1 : ℕ) : ℕ :=
  if 0 < si1 ∧ bucketEnd ≤ (listAt spec (si1 - 1) ⟨0, 0⟩).t then si1 - 1
  else si1

/-- Outer `for` loop of `downsampleSpectrum` over buckets. `remaining` counts
the buckets still to emit (the loop runs for `b` from the given start while
`b < bucketCount`, i.e. `bucketCount - b` more iterations), `si` is the scan
index shared across buckets. -/
def downsampleLoop (spec : List SpectrumPoint) (bucketDur durSecs : ℚ) :
    ℕ → ℕ → ℕ → List OutPoint
  | 0, _, _ => []
  | remaining + 1, b, si =>
    let bucketStart : ℚ := (b : ℚ) * bucketDur
    let bucketEnd : ℚ := bucketStart + bucketDur
    let scanned := scanBucket spec bucketStart bucketEnd si 0
    ⟨(bucketStart + bucketDur / 2) / durSecs, scanned.2⟩ ::
      downsampleLoop spec bucketDur durSecs remaining (b + 1)
        (nextScanIndex spec bucketEnd scanned.1)

/-- `downsampleSpectrum` from part_005 lines 100-132 / part_009 lines 117-148:
reduce the spectrum to at most `targetPoints` display buckets by
max-aggregation, normalizing times by `durSecs`. -/
def downsampleSpectrum (spec : List SpectrumPoint) (targetPoints durSecs : ℚ) :
    List OutPoint :=
  if spec.length = 0 ∨ durSecs ≤ 0 then []
  else if (spec.length : ℚ) ≤ targetPoints then
    spec.map (fun p => ⟨p.t / durSecs, p.music⟩)
  else
    let bucketCount : ℤ := max 1 ⌊targetPoints⌋
    let bucketDur : ℚ := durSecs / (bucketCount : ℚ)
    downsampleLoop spec bucketDur durSecs bucketCount.toNat 0 0

/-- The spectrum is sorted non-decreasing by `t` (index formulation over
`listAt`, decidable on concrete lists). -/
abbrev sortedByT (spec : List SpectrumPoint) : Prop :=
  ∀ j, j < spec.length → ∀ i, i ≤ j →
    (listAt spec i ⟨0, 0⟩).t ≤ (listAt spec j ⟨0, 0⟩).t

/-- Trickplay sprite-sheet description (the fields the embedded mappers use). -/
structure TrickplayInfo where
  tile_width : ℕ
  tile_height : ℕ
  thumbnail_count : ℕ
  interval : ℚ
deriving DecidableEq

/-- Index computations of `getThumbnailStyle` (part_004 lines 50-60 /
DetectionFilmstrip lines 66-77 / part_009 lines 191-202): decompose a
thumbnail index into sheet index, tile-on-sheet, column and row. Returned as
`(sheetIndex, tileOnSheet, col, row)`. -/
def getThumbnailCoords (tp : TrickplayInfo) (thumbIndex : ℕ) : ℕ × ℕ × ℕ × ℕ :=
  let tilesPerSheet := tp.tile_width * tp.tile_height
  let sheetIndex := thumbIndex / tilesPerSheet
  let tileOnSheet := thumbIndex % tilesPerSheet
  let col := tileOnSheet % tp.tile_width
  let row := tileOnSheet / tp.tile_width
  (sheetIndex, tileOnSheet, col, row)

/-- `getThumbIndexForTime` from part_009 lines 204-210:
`Math.min(Math.max(0, Math.floor(timeSecs / intervalSecs)), thumbnail_count - 1)`
with `intervalSecs = interval / 1000`. -/
def getThumbIndexForTime (tp : TrickplayInfo) (timeSecs : ℚ) : ℤ :=
  let intervalSecs : ℚ := tp.interval / 1000
  min (max 0 ⌊timeSecs / intervalSecs⌋) ((tp.thumbnail_count : ℤ) - 1)

/-- `ticksToX` from part_004 lines 75-78: map ticks to a pixel x-position on a
lane of width `timelineWidth`, returning 0 for a non-positive duration. -/
def ticksToX (durationTicks timelineWidth ticks : ℚ) : ℚ :=
  if durationTicks ≤ 0 then 0 else ticks / durationTicks * timelineWidth

/-- `getTrickplayStyle` from part_000 lines 48-72: `null` when the trickplay
info is missing or the duration is falsy (0); otherwise the sheet index and
tile coordinates of the hovered thumbnail, returned as
`(sheetIndex, col, row)`. The JavaScript `Math.floor(a / b)` on numbers is
`Int.floor` of the exact quotient; the `%` and `Math.floor` on the
(nonnegative in every caller) intermediate integers agree with `ℤ`'s `%` and
`Int.floor` used here. -/
def getTrickplayStyle (tp : Option TrickplayInfo) (duration : ℚ)
    (hoverFrac : ℚ) : Option (ℤ × ℤ × ℤ) :=
  match tp with
  | Option.none => Option.none
  | some t =>
    if duration = 0 then Option.none
    else
      let positionMs : ℤ := ⌊hoverFrac * duration * 1000⌋
      let thumbIndex : ℤ := ⌊(positionMs : ℚ) / t.interval⌋
      let tilesPerSheet : ℤ := (t.tile_width : ℤ) * (t.tile_height : ℤ)
      let sheetIndex : ℤ := ⌊(thumbIndex : ℚ) / (tilesPerSheet : ℚ)⌋
      let tileOnSheet : ℤ := thumbIndex % tilesPerSheet
      let col : ℤ := tileOnSheet % (t.tile_width : ℤ)
      let row : ℤ := ⌊(tileOnSheet : ℚ) / (t.tile_width : ℚ)⌋
      some (sheetIndex, col, row)

/-- Tick value produced by a click at `offsetPx` on a lane of pixel width
`laneWidthPx`, from `handleLaneClick` (part_004 lines 80-87); the
`handleWaveformClick` handlers (part_009 lines 238-246, part_005 lines
232-239) compute the identical expression with their own width variable:
`Math.max(0, Math.min(durationTicks, Math.floor(offset / width * durationTicks)))`. -/
def handleLaneClickTicks (offsetPx laneWidthPx : ℚ) (durationTicks : ℤ) : ℤ :=
  let frac : ℚ := offsetPx / laneWidthPx
  let ticks : ℤ := ⌊frac * (durationTicks : ℚ)⌋
  max 0 (min durationTicks ticks)

/-- Modelled from the spec: `pixelOffsetToTicks(offsetPx, laneWidthPx,
durationTicks) → round(offsetPx/laneWidthPx * durationTicks)`, clamped to
`[0, durationTicks]`, where `round` is JavaScript `Math.round`,
i.e. `⌊x + 1/2⌋`. For comparison with `handleLaneClickTicks`. -/
def pixelOffsetToTicksSpec (offsetPx laneWidthPx : ℚ) (durationTicks : ℤ) : ℤ :=
  max 0 (min durationTicks ⌊offsetPx / laneWidthPx * (durationTicks : ℚ) + 1 / 2⌋)

/-- Detection type tags of the analysis results. -/
inductive DetectionType
  | scene_change
  | dark_frame
  | graphics_change
  | bell
  | music_start
deriving DecidableEq

/-- One detection instant. The source field `type` is spelled `dtype` here
(`type` is reserved in Lean). -/
structure Detection where
  dtype : DetectionType
  timestamp_ticks : ℤ
  confidence : ℚ
deriving DecidableEq

/-- Status tags of `AnalysisStatus.status`. -/
inductive StatusTag
  | none
  | running_visual
  | running_audio
  | completed
  | failed
deriving DecidableEq

/-- Analysis results snapshot (the parts state transitions depend on). -/
structure AnalysisResults where
  visual_detections : List Detection
  audio_detections : List Detection
deriving DecidableEq

/-- In-memory state of a detection view's poller: whether the interval timer
is installed (`pollInterval` non-null), the last seen status tag, and the
fetched results. -/
structure PollerState where
  timerActive : Bool
  status : StatusTag
  results : Option AnalysisResults
deriving DecidableEq

/-- Outcome of one poll request: either a fresh status (with the results the
results-endpoint would deliver if fetched), or a thrown network error. -/
inductive PollResponse
  | ok (st : StatusTag) (res : AnalysisResults)
  | err
deriving DecidableEq

/-- Body of the `setInterval` callback in `startPolling` (detect page lines
146-161 / DetectionFilmstrip lines 178-193 / part_009 lines 303-318). Returns
the new state and how many times the results endpoint was fetched (0 or 1):
on success the status is stored; `completed` stops the timer and fetches the
results once; `failed` and `none` stop the timer without fetching; a thrown
request stops the timer leaving status and results unchanged. -/
def pollTick (s : PollerState) (r : PollResponse) : PollerState × ℕ :=
  match r with
  | PollResponse.err => ({ s with timerActive := false }, 0)
  | PollResponse.ok st res =>
    if st = StatusTag.completed then
      ({ timerActive := false, status := st, results := some res }, 1)
    else if st = StatusTag.failed ∨ st = StatusTag.none then
      ({ s with status := st, timerActive := false }, 0)
    else
      ({ s with status := st }, 0)

/-- Run of the interval timer over a queue of poll responses: each tick fires
only while the timer is installed. Returns the final state and the total
number of results fetches. -/
def runPoller : PollerState → List PollResponse → PollerState × ℕ
  | s, [] => (s, 0)
  | s, r :: rs =>
    if s.timerActive then
      let step := pollTick s r
      let rest := runPoller step.1 rs
      (rest.1, step.2 + rest.2)
    else (s, 0)

/-- `handleClear` from the detect page lines 140-144 / DetectionFilmstrip
lines 171-176 / part_009 lines 297-301: unconditionally reset status to
`none` and drop the results (the timer is not touched). -/
def handleClear (s : PollerState) : PollerState :=
  { s with status := StatusTag.none, results := Option.none }

/-- Whether the markup renders the Clear affordance for a given status: the
Clear button sits only inside the `status === 'completed'` branch of the
header (DetectionFilmstrip lines 293-322, part_009 lines 414-444, detect page
lines 215-230); the `failed` branch offers only Retry. -/
def clearControlVisible (st : StatusTag) : Bool :=
  match st with
  | StatusTag.completed => true
  | _ => false

/-- A persisted chapter as used by the timeline's chapter lane. -/
structure Chapter where
  title : String
  start_ticks : ℤ
  end_ticks : Option ℤ
deriving DecidableEq

/-- Pixel end position of the `i`-th chapter's segment in the chapter lane
(part_004 lines 255-265): `chapter.end_ticks ? ticksToX(chapter.end_ticks) :
(i < chapters.length - 1 ? ticksToX(chapters[i+1].start_ticks) :
timelineWidth)`. JavaScript truthiness makes `end_ticks = 0` take the
fallback branch, as does `null`. -/
def chapterSegmentEndX (durationTicks timelineWidth : ℚ)
    (chapters : List Chapter) (i : ℕ) : ℚ :=
  let fallbackEnd : ℚ :=
    match chapters.get? (i + 1) with
    | some nxt => ticksToX durationTicks timelineWidth (nxt.start_ticks : ℚ)
    | Option.none => timelineWidth
  match chapters.get? i with
  | some c =>
    match c.end_ticks with
    | some e => if e = 0 then fallbackEnd
                else ticksToX durationTicks timelineWidth (e : ℚ)
    | Option.none => fallbackEnd
  | Option.none => 0

/-- Modelled from the spec: chapter segment end
`end = chapter.end_ticks ?? nextChapter.start_ticks ?? timelineEnd` with `??`
null-coalescing (an `end_ticks` of 0 is present and used). For comparison
with `chapterSegmentEndX`. -/
def chapterSegmentEndXSpec (durationTicks timelineWidth : ℚ)
    (chapters : List Chapter) (i : ℕ) : ℚ :=
  let fallbackEnd : ℚ :=
    match chapters.get? (i + 1) with
    | some nxt => ticksToX durationTicks timelineWidth (nxt.start_ticks : ℚ)
    | Option.none => timelineWidth
  match chapters.get? i with
  | some c =>
    match c.end_ticks with
    | some e => ticksToX durationTicks timelineWidth (e : ℚ)
    | Option.none => fallbackEnd
  | Option.none => 0

/-- Modelled from the spec as amended (an `end_ticks` of 0 is falsy in the
source): the segment end equals `end_ticks` when it is present and nonzero; otherwise the
next chapter's `start_ticks`; otherwise the timeline end (the full lane
width). For comparison with `chapterSegmentEndX`. -/
def chapterSegmentEndXAmended (durationTicks timelineWidth : ℚ)
    (chapters : List Chapter) (i : ℕ) : ℚ :=
  match chapters.get? i with
  | some c =>
    match c.end_ticks with
    | some e =>
      if e ≠ 0 then ticksToX durationTicks timelineWidth (e : ℚ)
      else
        match chapters.get? (i + 1) with
        | some nxt => ticksToX durationTicks timelineWidth (nxt.start_ticks : ℚ)
        | Option.none => timelineWidth
    | Option.none =>
      match chapters.get? (i + 1) with
      | some nxt => ticksToX durationTicks timelineWidth (nxt.start_ticks : ℚ)
      | Option.none => timelineWidth
  | Option.none => 0

/-- `defaultTitle` from DetectionFilmstrip lines 117-126 / DetectionList lines
64-72 (the `default: 'Chapter'` arm is unreachable over the closed detection
type). -/
def defaultTitle (t : DetectionType) : String :=
  match t with
  | DetectionType.bell => "Match Start"
  | DetectionType.music_start => "Entrance"
  | DetectionType.scene_change => "Segment Break"
  | DetectionType.dark_frame => "Segment Break"
  | DetectionType.graphics_change => "Graphics"

/-- Payload of the chapter-creation request issued when a detection is
accepted. -/
structure ChapterCreate where
  title : String
  start_ticks : ℤ
deriving DecidableEq

/-- Composition of `handleAccept` (DetectionFilmstrip lines 154-158:
`onAcceptChapter(selectedDetection.timestamp_ticks, defaultTitle(selectedDetection.type))`)
with `handleAcceptChapter` (detect page lines 116-123:
`createChapter(videoId, { title, start_ticks: ticks })`): the chapter created
from an accepted detection. -/
def acceptDetectionChapter (d : Detection) : ChapterCreate :=
  { title := defaultTitle d.dtype, start_ticks := d.timestamp_ticks }

/-! ## Theorems -/

/-- Claim C4: sprite tiling round-trip: for `tile_width ≥ 1`, `tile_height ≥ 1`
and `thumbIndex < thumbnail_count`, the decomposition of `getThumbnailStyle`
satisfies `sheetIndex * tilesPerSheet + tileOnSheet = thumbIndex`,
`col < tile_width` and `row < tile_height`. -/
theorem thumbnail_tiling_roundtrip (tp : TrickplayInfo) (thumbIndex : ℕ)
    (hw : 1 ≤ tp.tile_width) (hh : 1 ≤ tp.tile_height)
    (hcount : thumbIndex < tp.thumbnail_count) :
    (getThumbnailCoords tp thumbIndex).1 * (tp.tile_width * tp.tile_height) +
        (getThumbnailCoords tp thumbIndex).2.1 = thumbIndex ∧
      (getThumbnailCoords tp thumbIndex).2.2.1 < tp.tile_width ∧
      (getThumbnailCoords tp thumbIndex).2.2.2 < tp.tile_height := by
  have hpos : 0 < tp.tile_width * tp.tile_height :=
    Nat.mul_pos hw hh
  refine ⟨?_, Nat.mod_lt _ hw, ?_⟩
  · rw [Nat.mul_comm]
    exact Nat.div_add_mod _ _
  · exact Nat.div_lt_of_lt_mul (Nat.mod_lt _ hpos)

/-- Witness for C4 at a concrete sprite sheet (4×3 tiles, 100 thumbnails,
index 37). -/
theorem thumbnail_tiling_roundtrip_witness :
    (getThumbnailCoords ⟨4, 3, 100, 10000⟩ 37).1 * (4 * 3) +
        (getThumbnailCoords ⟨4, 3, 100, 10000⟩ 37).2.1 = 37 ∧
      (getThumbnailCoords ⟨4, 3, 100, 10000⟩ 37).2.2.1 < 4 ∧
      (getThumbnailCoords ⟨4, 3, 100, 10000⟩ 37).2.2.2 < 3 :=
  thumbnail_tiling_roundtrip ⟨4, 3, 100, 10000⟩ 37 (by decide) (by decide)
    (by decide)

/-- Claim C3, counterexample: at `offsetPx = 1`, `laneWidthPx = 2`,
`durationTicks = 1` the handler (which floors) yields 0 while the claimed
`round`-based mapping yields 1. -/
theorem pixel_to_ticks_cex :
    handleLaneClickTicks 1 2 1 = 0 ∧ pixelOffsetToTicksSpec 1 2 1 = 1 ∧
      handleLaneClickTicks 1 2 1 ≠ pixelOffsetToTicksSpec 1 2 1 := by
  norm_num [handleLaneClickTicks, pixelOffsetToTicksSpec]

/-- Claim C3 (amended): the tick value produced by a click at `offsetPx` on a
lane of width `laneWidthPx > 0` with `durationTicks ≥ 0` equals
`floor(offsetPx/laneWidthPx * durationTicks)` clamped to `[0, durationTicks]`
(the source floors, it does not round); the result lies in
`[0, durationTicks]` and is monotone in the offset. -/
theorem pixel_to_ticks_floor_clamp (offsetPx laneWidthPx : ℚ)
    (durationTicks : ℤ) (hw : 0 < laneWidthPx) (hD : 0 ≤ durationTicks) :
    handleLaneClickTicks offsetPx laneWidthPx durationTicks =
        max 0 (min durationTicks ⌊offsetPx / laneWidthPx * (durationTicks : ℚ)⌋) ∧
      0 ≤ handleLaneClickTicks offsetPx laneWidthPx durationTicks ∧
      handleLaneClickTicks offsetPx laneWidthPx durationTicks ≤ durationTicks ∧
      ∀ offsetPx' : ℚ, offsetPx ≤ offsetPx' →
        handleLaneClickTicks offsetPx laneWidthPx durationTicks ≤
          handleLaneClickTicks offsetPx' laneWidthPx durationTicks := by
  refine ⟨rfl, le_max_left _ _, max_le hD (min_le_left _ _), ?_⟩
  intro o' h
  unfold handleLaneClickTicks
  refine max_le_max le_rfl (min_le_min le_rfl (Int.floor_le_floor ?_))
  apply mul_le_mul_of_nonneg_right _ (by exact_mod_cast hD)
  exact (div_le_div_iff_of_pos_right hw).mpr h

/-- Witness for C3's amended theorem at `offsetPx = 1`, `laneWidthPx = 2`,
`durationTicks = 10`, with the monotonicity conjunct instantiated at
`offsetPx' = 3`. -/
theorem pixel_to_ticks_floor_clamp_witness :
    handleLaneClickTicks 1 2 10 =
        max 0 (min 10 ⌊(1 : ℚ) / 2 * ((10 : ℤ) : ℚ)⌋) ∧
      0 ≤ handleLaneClickTicks 1 2 10 ∧
      handleLaneClickTicks 1 2 10 ≤ 10 ∧
      handleLaneClickTicks 1 2 10 ≤ handleLaneClickTicks 3 2 10 := by
  have h := pixel_to_ticks_floor_clamp 1 2 10 (by decide) (by decide)
  exact ⟨h.1, h.2.1, h.2.2.1, h.2.2.2 3 (by decide)⟩

/-- Claim C7, counterexample: with `thumbnail_count = 0` (and interval
10000 ms) `getThumbIndexForTime` returns `-1`, an out-of-range sentinel, not
the claimed default index 0. -/
theorem degenerate_geometry_cex :
    getThumbIndexForTime ⟨4, 3, 0, 10000⟩ 0 = -1 ∧
      getThumbIndexForTime ⟨4, 3, 0, 10000⟩ 0 ≠ 0 := by
  norm_num [getThumbIndexForTime]

/-- Claim C7 (amended): the geometry mappers are total; `ticksToX` returns the
default position 0 for a non-positive duration; `getTrickplayStyle` returns
`none` (no style, rather than an error) when the duration is 0 or the
trickplay info is missing; `getThumbIndexForTime` returns `-1` (not 0) when
`thumbnail_count = 0`, and returns an index within `[0, thumbnail_count - 1]`
whenever `thumbnail_count ≥ 1`. -/
theorem degenerate_geometry_defaults (tpZero tpPos : TrickplayInfo)
    (timeSecs timeSecs2 durationTicks timelineWidth ticks hover hover2
      duration2 : ℚ)
    (hdur : durationTicks ≤ 0) (hz : tpZero.thumbnail_count = 0)
    (hp : 1 ≤ tpPos.thumbnail_count) :
    ticksToX durationTicks timelineWidth ticks = 0 ∧
      getTrickplayStyle (some tpZero) 0 hover = Option.none ∧
      getTrickplayStyle Option.none duration2 hover2 = Option.none ∧
      getThumbIndexForTime tpZero timeSecs = -1 ∧
      0 ≤ getThumbIndexForTime tpPos timeSecs2 ∧
      getThumbIndexForTime tpPos timeSecs2 ≤ (tpPos.thumbnail_count : ℤ) - 1 := by
  refine ⟨by simp [ticksToX, hdur], by simp [getTrickplayStyle], rfl, ?_, ?_, ?_⟩
  · unfold getThumbIndexForTime
    rw [hz]
    have h0 : ((0 : ℕ) : ℤ) - 1 = -1 := by decide
    rw [h0]
    exact min_eq_right (le_trans (by decide) (le_max_left 0 _))
  · unfold getThumbIndexForTime
    refine le_min (le_max_left 0 _) ?_
    have : (1 : ℤ) ≤ (tpPos.thumbnail_count : ℤ) := by exact_mod_cast hp
    omega
  · exact min_le_right _ _

/-- Witness for C7's amended theorem at concrete inputs (a zero-count
trickplay and a 100-thumbnail trickplay). -/
theorem degenerate_geometry_defaults_witness :
    ticksToX (-1) 500 3 = 0 ∧
      getTrickplayStyle (some ⟨4, 3, 0, 10000⟩) 0 (1 / 2) = Option.none ∧
      getTrickplayStyle Option.none 7 (1 / 2) = Option.none ∧
      getThumbIndexForTime ⟨4, 3, 0, 10000⟩ 5 = -1 ∧
      0 ≤ getThumbIndexForTime ⟨4, 3, 100, 10000⟩ 17 ∧
      getThumbIndexForTime ⟨4, 3, 100, 10000⟩ 17 ≤ ((100 : ℕ) : ℤ) - 1 :=
  degenerate_geometry_defaults ⟨4, 3, 0, 10000⟩ ⟨4, 3, 100, 10000⟩ 5 17 (-1)
    500 3 (1 / 2) (1 / 2) 7 (by decide) (by decide) (by decide)

/-- Claim C6, counterexample: invoking `handleClear` while the status is
`running_visual` (neither `completed` nor `failed`) changes the state — it is
not a no-op there. -/
theorem clear_guard_cex :
    handleClear ⟨true, StatusTag.running_visual, Option.none⟩ ≠
      ⟨true, StatusTag.running_visual, Option.none⟩ := by decide

/-- Claim C6 (amended): `handleClear` unconditionally resets the status to
`none` and discards the results whatever the current status (it leaves the
timer flag alone); the Clear affordance, however, is rendered only while the
status is `completed`, so in the UI clear is reachable only from `completed`
(it is not offered from `failed`). -/
theorem clear_unconditional_reset (s : PollerState) (st : StatusTag) :
    (handleClear s).status = StatusTag.none ∧
      (handleClear s).results = Option.none ∧
      (handleClear s).timerActive = s.timerActive ∧
      (clearControlVisible st = true ↔ st = StatusTag.completed) := by
  refine ⟨rfl, rfl, rfl, ?_⟩
  cases st <;> simp [clearControlVisible]

/-- Claim C9: accepting a detection creates the chapter at exactly the
detection's `timestamp_ticks` with the type-specific default title
(`bell` → "Match Start", `music_start` → "Entrance", `scene_change` and
`dark_frame` → "Segment Break"). -/
theorem accept_detection_chapter (ticks : ℤ) (conf : ℚ) :
    acceptDetectionChapter ⟨DetectionType.bell, ticks, conf⟩ =
        ⟨"Match Start", ticks⟩ ∧
      acceptDetectionChapter ⟨DetectionType.music_start, ticks, conf⟩ =
        ⟨"Entrance", ticks⟩ ∧
      acceptDetectionChapter ⟨DetectionType.scene_change, ticks, conf⟩ =
        ⟨"Segment Break", ticks⟩ ∧
      acceptDetectionChapter ⟨DetectionType.dark_frame, ticks, conf⟩ =
        ⟨"Segment Break", ticks⟩ ∧
      ∀ d : Detection,
        (acceptDetectionChapter d).start_ticks = d.timestamp_ticks :=
  ⟨rfl, rfl, rfl, rfl, fun _ => rfl⟩

/-- Claim C8, counterexample: a chapter with `end_ticks = 0` (present) is
treated as open-ended by the source (JS truthiness), so its computed end is
the next chapter's start (pixel 50), while the claimed rule gives
`ticksToX 0 = 0`. -/
theorem chapter_segment_end_cex :
    chapterSegmentEndX 100 100 [⟨"a", 0, some 0⟩, ⟨"b", 50, Option.none⟩] 0 = 50 ∧
      chapterSegmentEndXSpec 100 100 [⟨"a", 0, some 0⟩, ⟨"b", 50, Option.none⟩] 0 = 0 ∧
      chapterSegmentEndX 100 100 [⟨"a", 0, some 0⟩, ⟨"b", 50, Option.none⟩] 0 ≠
        chapterSegmentEndXSpec 100 100 [⟨"a", 0, some 0⟩, ⟨"b", 50, Option.none⟩] 0 := by
  norm_num [chapterSegmentEndX, chapterSegmentEndXSpec, ticksToX]

/-- Claim C8 (amended): the computed end of the `i`-th chapter segment equals
`end_ticks` when present and nonzero (JS truthiness treats `end_ticks = 0`
like `null`), otherwise the next chapter's `start_ticks` when a next chapter
exists, otherwise the timeline end; in particular a chapter with
`end_ticks = null` followed by another chapter ends exactly at the next
chapter's `start_ticks`. -/
theorem chapter_segment_end (durationTicks timelineWidth : ℚ)
    (chapters : List Chapter) (i j : ℕ) (c nxt : Chapter)
    (hc : chapters.get? i = some c) (hnone : c.end_ticks = Option.none)
    (hnxt : chapters.get? (i + 1) = some nxt) :
    chapterSegmentEndX durationTicks timelineWidth chapters i =
        ticksToX durationTicks timelineWidth (nxt.start_ticks : ℚ) ∧
      chapterSegmentEndX durationTicks timelineWidth chapters j =
        chapterSegmentEndXAmended durationTicks timelineWidth chapters j := by
  simp only [List.get?_eq_getElem?] at hc hnxt
  constructor
  · simp [chapterSegmentEndX, hc, hnone, hnxt]
  · cases hgj : chapters[j]? with
    | none => simp [chapterSegmentEndX, chapterSegmentEndXAmended, hgj]
    | some cj =>
      cases hej : cj.end_ticks with
      | none => simp [chapterSegmentEndX, chapterSegmentEndXAmended, hgj, hej]
      | some e =>
        by_cases he : e = 0
        · subst he
          simp [chapterSegmentEndX, chapterSegmentEndXAmended, hgj, hej]
        · simp [chapterSegmentEndX, chapterSegmentEndXAmended, hgj, hej, he]

/-- Witness for C8's amended theorem on a two-chapter list whose first chapter
is open-ended. -/
theorem chapter_segment_end_witness :
    chapterSegmentEndX 100 200 [⟨"a", 0, Option.none⟩, ⟨"b", 60, some 80⟩] 0 =
        ticksToX 100 200 ((60 : ℤ) : ℚ) ∧
      chapterSegmentEndX 100 200 [⟨"a", 0, Option.none⟩, ⟨"b", 60, some 80⟩] 1 =
        chapterSegmentEndXAmended 100 200 [⟨"a", 0, Option.none⟩, ⟨"b", 60, some 80⟩] 1 :=
  chapter_segment_end 100 200 [⟨"a", 0, Option.none⟩, ⟨"b", 60, some 80⟩] 0 1
    ⟨"a", 0, Option.none⟩ ⟨"b", 60, some 80⟩ rfl rfl rfl

/-- Once the interval timer is uninstalled, no further poll responses are
processed and nothing more is fetched. -/
theorem runPoller_inactive (s : PollerState) (rs : List PollResponse)
    (h : s.timerActive = false) : runPoller s rs = (s, 0) := by
  cases rs with
  | nil => rfl
  | cons r rs => simp [runPoller, h]

/-- Claim C5: while the status is running and the timer installed, a poll
tick that reports a running status keeps the timer installed (and fetches
nothing); a tick reporting `completed` stops the timer and fetches the
results exactly once, after which no further responses are processed; a tick
reporting `failed` or `none` stops the timer without fetching; a thrown tick
stops the timer without fetching or retrying, leaving status and results
unchanged. -/
theorem poller_terminal_behavior (s : PollerState) (rs : List PollResponse)
    (res : AnalysisResults) (stRun : StatusTag)
    (hact : s.timerActive = true)
    (hrun : s.status = StatusTag.running_visual ∨
      s.status = StatusTag.running_audio)
    (hstRun : stRun = StatusTag.running_visual ∨
      stRun = StatusTag.running_audio) :
    ((pollTick s (PollResponse.ok stRun res)).1.timerActive = true ∧
        (pollTick s (PollResponse.ok stRun res)).1.status = stRun ∧
        (pollTick s (PollResponse.ok stRun res)).2 = 0) ∧
      ((pollTick s (PollResponse.ok StatusTag.completed res)).1.timerActive =
          false ∧
        (pollTick s (PollResponse.ok StatusTag.completed res)).1.results =
          some res ∧
        (pollTick s (PollResponse.ok StatusTag.completed res)).2 = 1 ∧
        runPoller (pollTick s (PollResponse.ok StatusTag.completed res)).1 rs =
          ((pollTick s (PollResponse.ok StatusTag.completed res)).1, 0)) ∧
      ((pollTick s (PollResponse.ok StatusTag.failed res)).1.timerActive =
          false ∧
        (pollTick s (PollResponse.ok StatusTag.failed res)).1.results =
          s.results ∧
        (pollTick s (PollResponse.ok StatusTag.failed res)).2 = 0 ∧
        runPoller (pollTick s (PollResponse.ok StatusTag.failed res)).1 rs =
          ((pollTick s (PollResponse.ok StatusTag.failed res)).1, 0)) ∧
      ((pollTick s (PollResponse.ok StatusTag.none res)).1.timerActive =
          false ∧
        (pollTick s (PollResponse.ok StatusTag.none res)).1.results =
          s.results ∧
        (pollTick s (PollResponse.ok StatusTag.none res)).2 = 0 ∧
        runPoller (pollTick s (PollResponse.ok StatusTag.none res)).1 rs =
          ((pollTick s (PollResponse.ok StatusTag.none res)).1, 0)) ∧
      ((pollTick s PollResponse.err).1.timerActive = false ∧
        (pollTick s PollResponse.err).1.status = s.status ∧
        (pollTick s PollResponse.err).1.results = s.results ∧
        (pollTick s PollResponse.err).2 = 0 ∧
        runPoller (pollTick s PollResponse.err).1 rs =
          ((pollTick s PollResponse.err).1, 0)) := by
  refine ⟨?_, ?_, ?_, ?_, ?_⟩
  · rcases hstRun with h | h <;> subst h <;> simp [pollTick, hact]
  · refine ⟨rfl, rfl, rfl, runPoller_inactive _ rs rfl⟩
  · refine ⟨rfl, rfl, rfl, runPoller_inactive _ rs rfl⟩
  · refine ⟨rfl, rfl, rfl, runPoller_inactive _ rs rfl⟩
  · exact ⟨rfl, rfl, rfl, rfl, runPoller_inactive _ rs rfl⟩

/-- Witness for C5 at a concrete running state, an empty results payload and
a one-response remainder queue. -/
theorem poller_terminal_behavior_witness :
    ((pollTick ⟨true, StatusTag.running_visual, Option.none⟩
          (PollResponse.ok StatusTag.running_audio ⟨[], []⟩)).1.timerActive =
          true ∧
        (pollTick ⟨true, StatusTag.running_visual, Option.none⟩
          (PollResponse.ok StatusTag.running_audio ⟨[], []⟩)).1.status =
          StatusTag.running_audio ∧
        (pollTick ⟨true, StatusTag.running_visual, Option.none⟩
          (PollResponse.ok StatusTag.running_audio ⟨[], []⟩)).2 = 0) ∧
      ((pollTick ⟨true, StatusTag.running_visual, Option.none⟩
          (PollResponse.ok StatusTag.completed ⟨[], []⟩)).1.timerActive =
          false ∧
        (pollTick ⟨true, StatusTag.running_visual, Option.none⟩
          (PollResponse.ok StatusTag.completed ⟨[], []⟩)).1.results =
          some ⟨[], []⟩ ∧
        (pollTick ⟨true, StatusTag.running_visual, Option.none⟩
          (PollResponse.ok StatusTag.completed ⟨[], []⟩)).2 = 1 ∧
        runPoller (pollTick ⟨true, StatusTag.running_visual, Option.none⟩
            (PollResponse.ok StatusTag.completed ⟨[], []⟩)).1
            [PollResponse.err] =
          ((pollTick ⟨true, StatusTag.running_visual, Option.none⟩
            (PollResponse.ok StatusTag.completed ⟨[], []⟩)).1, 0)) ∧
      ((pollTick ⟨true, StatusTag.running_visual, Option.none⟩
          (PollResponse.ok StatusTag.failed ⟨[], []⟩)).1.timerActive = false ∧
        (pollTick ⟨true, StatusTag.running_visual, Option.none⟩
          (PollResponse.ok StatusTag.failed ⟨[], []⟩)).1.results =
          (⟨true, StatusTag.running_visual, Option.none⟩ : PollerState).results ∧
        (pollTick ⟨true, StatusTag.running_visual, Option.none⟩
          (PollResponse.ok StatusTag.failed ⟨[], []⟩)).2 = 0 ∧
        runPoller (pollTick ⟨true, StatusTag.running_visual, Option.none⟩
            (PollResponse.ok StatusTag.failed ⟨[], []⟩)).1 [PollResponse.err] =
          ((pollTick ⟨true, StatusTag.running_visual, Option.none⟩
            (PollResponse.ok StatusTag.failed ⟨[], []⟩)).1, 0)) ∧
      ((pollTick ⟨true, StatusTag.running_visual, Option.none⟩
          (PollResponse.ok StatusTag.none ⟨[], []⟩)).1.timerActive = false ∧
        (pollTick ⟨true, StatusTag.running_visual, Option.none⟩
          (PollResponse.ok StatusTag.none ⟨[], []⟩)).1.results =
          (⟨true, StatusTag.running_visual, Option.none⟩ : PollerState).results ∧
        (pollTick ⟨true, StatusTag.running_visual, Option.none⟩
          (PollResponse.ok StatusTag.none ⟨[], []⟩)).2 = 0 ∧
        runPoller (pollTick ⟨true, StatusTag.running_visual, Option.none⟩
            (PollResponse.ok StatusTag.none ⟨[], []⟩)).1 [PollResponse.err] =
          ((pollTick ⟨true, StatusTag.running_visual, Option.none⟩
            (PollResponse.ok StatusTag.none ⟨[], []⟩)).1, 0)) ∧
      ((pollTick ⟨true, StatusTag.running_visual, Option.none⟩
          PollResponse.err).1.timerActive = false ∧
        (pollTick ⟨true, StatusTag.running_visual, Option.none⟩
          PollResponse.err).1.status =
          (⟨true, StatusTag.running_visual, Option.none⟩ : PollerState).status ∧
        (pollTick ⟨true, StatusTag.running_visual, Option.none⟩
          PollResponse.err).1.results =
          (⟨true, StatusTag.running_visual, Option.none⟩ : PollerState).results ∧
        (pollTick ⟨true, StatusTag.running_visual, Option.none⟩
          PollResponse.err).2 = 0 ∧
        runPoller (pollTick ⟨true, StatusTag.running_visual, Option.none⟩
            PollResponse.err).1 [PollResponse.err] =
          ((pollTick ⟨true, StatusTag.running_visual, Option.none⟩
            PollResponse.err).1, 0)) :=
  poller_terminal_behavior ⟨true, StatusTag.running_visual, Option.none⟩
    [PollResponse.err] ⟨[], []⟩ StatusTag.running_audio rfl (Or.inl rfl)
    (Or.inr rfl)

/-- Indexing a dropped list is indexing the original at the shifted index. -/
theorem listAt_drop {α : Type} (l : List α) (n m : ℕ) (d : α) :
    listAt (l.drop n) m d = listAt l (n + m) d := by
  induction l generalizing n m with
  | nil => simp [listAt]
  | cons a rest ih =>
    cases n with
    | zero => simp
    | succ k =>
      rw [List.drop_succ_cons, ih k m]
      have h : k + 1 + m = (k + m) + 1 := by omega
      rw [h]
      rfl

/-- The inner scan never moves the index backwards. -/
theorem scanBucketAux_fst_ge (bs be : ℚ) (l : List SpectrumPoint) (si : ℕ)
    (m : ℚ) : si ≤ (scanBucketAux bs be l si m).1 := by
  induction l generalizing si m with
  | nil => exact le_refl _
  | cons p rest ih =>
    by_cases h : p.t < be
    · simp only [scanBucketAux, if_pos h]
      exact le_trans (Nat.le_succ si) (ih _ _)
    · simp [scanBucketAux, if_neg h]

/-- The inner scan consumes at most the points handed to it. -/
theorem scanBucketAux_fst_le (bs be : ℚ) (l : List SpectrumPoint) (si : ℕ)
    (m : ℚ) : (scanBucketAux bs be l si m).1 ≤ si + l.length := by
  induction l generalizing si m with
  | nil => simp [scanBucketAux]
  | cons p rest ih =>
    by_cases h : p.t < be
    · simp only [scanBucketAux, if_pos h]
      calc (scanBucketAux bs be rest (si + 1) _).1
          ≤ (si + 1) + rest.length := ih _ _
        _ = si + (p :: rest).length := by
            simp only [List.length_cons]
            omega
    · simp [scanBucketAux, if_neg h]

/-- The folded maximum never drops below its accumulator. -/
theorem scanBucketAux_snd_ge (bs be : ℚ) (l : List SpectrumPoint) (si : ℕ)
    (m : ℚ) : m ≤ (scanBucketAux bs be l si m).2 := by
  induction l generalizing si m with
  | nil => exact le_refl _
  | cons p rest ih =>
    by_cases h : p.t < be
    · simp only [scanBucketAux, if_pos h]
      refine le_trans ?_ (ih _ _)
      by_cases h2 : bs ≤ p.t
      · simp only [if_pos h2]
        exact le_max_left _ _
      · simp [if_neg h2]
    · simp [scanBucketAux, if_neg h]

/-- Every point the inner scan consumed has `t` below the bucket end. -/
theorem scanBucketAux_consumed (bs be : ℚ) (l : List SpectrumPoint) (si : ℕ)
    (m : ℚ) (k : ℕ) (hk : k + si < (scanBucketAux bs be l si m).1) :
    (listAt l k ⟨0, 0⟩).t < be := by
  induction l generalizing si m k with
  | nil =>
    have hk' : k + si < si := hk
    omega
  | cons p rest ih =>
    by_cases h : p.t < be
    · simp only [scanBucketAux, if_pos h] at hk
      cases k with
      | zero => exact h
      | succ k =>
        exact ih (si + 1) (if bs ≤ p.t then max m p.music else m) k (by omega)
    · simp only [scanBucketAux, if_neg h] at hk
      omega

/-- The folded maximum dominates every point the scan consumed that lies at
or after the bucket start (provided all points up to it are consumed). -/
theorem scanBucketAux_le (bs be : ℚ) (l : List SpectrumPoint) (si : ℕ) (m : ℚ)
    (j : ℕ) (hj : j < l.length) (hbs : bs ≤ (listAt l j ⟨0, 0⟩).t)
    (hall : ∀ k, k ≤ j → (listAt l k ⟨0, 0⟩).t < be) :
    (listAt l j ⟨0, 0⟩).music ≤ (scanBucketAux bs be l si m).2 := by
  induction l generalizing si m j with
  | nil => simp at hj
  | cons p rest ih =>
    have hpbe : p.t < be := hall 0 (Nat.zero_le _)
    simp only [scanBucketAux, if_pos hpbe]
    cases j with
    | zero =>
      simp only [listAt] at hbs ⊢
      rw [if_pos hbs]
      exact le_trans (le_max_right m p.music) (scanBucketAux_snd_ge _ _ _ _ _)
    | succ j =>
      have hj' : j < rest.length := by simpa using hj
      exact ih _ _ j hj' hbs (fun k hk => hall (k + 1) (by omega))

/-- A scan over points none of which lie in `[bucketStart, bucketEnd)` leaves
the accumulator untouched. -/
theorem scanBucketAux_untouched (bs be : ℚ) (l : List SpectrumPoint) (si : ℕ)
    (m : ℚ) (hno : ∀ p ∈ l, ¬(bs ≤ p.t ∧ p.t < be)) :
    (scanBucketAux bs be l si m).2 = m := by
  induction l generalizing si m with
  | nil => rfl
  | cons p rest ih =>
    by_cases h : p.t < be
    · have h2 : ¬ bs ≤ p.t := fun a => hno p (List.mem_cons_self p rest) ⟨a, h⟩
      simp only [scanBucketAux, if_pos h, if_neg h2]
      exact ih _ _ (fun q hq => hno q (List.mem_cons_of_mem p hq))
    · simp [scanBucketAux, if_neg h]

/-- `scanBucket` never moves the index backwards. -/
theorem scanBucket_fst_ge (spec : List SpectrumPoint) (bs be : ℚ) (si : ℕ)
    (m : ℚ) : si ≤ (scanBucket spec bs be si m).1 :=
  scanBucketAux_fst_ge bs be (spec.drop si) si m

/-- `scanBucket` keeps the index within the spectrum. -/
theorem scanBucket_fst_le (spec : List SpectrumPoint) (bs be : ℚ) (si : ℕ)
    (m : ℚ) (h : si ≤ spec.length) :
    (scanBucket spec bs be si m).1 ≤ spec.length := by
  have hb := scanBucketAux_fst_le bs be (spec.drop si) si m
  rw [List.length_drop] at hb
  unfold scanBucket
  omega

/-- Every point with index in `[si, scan result)` has `t` below the bucket
end. -/
theorem scanBucket_consumed (spec : List SpectrumPoint) (bs be : ℚ) (si : ℕ)
    (m : ℚ) (k : ℕ) (hsk : si ≤ k) (hk : k < (scanBucket spec bs be si m).1) :
    (listAt spec k ⟨0, 0⟩).t < be := by
  unfold scanBucket at hk
  have h := scanBucketAux_consumed bs be (spec.drop si) si m (k - si) (by omega)
  rw [listAt_drop] at h
  have he : si + (k - si) = k := by omega
  rwa [he] at h

/-- The bucket value dominates any point at or after the bucket start whose
whole index segment from `si` stays below the bucket end. -/
theorem scanBucket_le (spec : List SpectrumPoint) (bs be : ℚ) (si : ℕ) (m : ℚ)
    (j : ℕ) (hsj : si ≤ j) (hj : j < spec.length)
    (hbs : bs ≤ (listAt spec j ⟨0, 0⟩).t)
    (hall : ∀ k, si ≤ k → k ≤ j → (listAt spec k ⟨0, 0⟩).t < be) :
    (listAt spec j ⟨0, 0⟩).music ≤ (scanBucket spec bs be si m).2 := by
  unfold scanBucket
  have hlen : j - si < (spec.drop si).length := by
    rw [List.length_drop]
    omega
  have hconv : listAt (spec.drop si) (j - si) ⟨0, 0⟩ = listAt spec j ⟨0, 0⟩ := by
    rw [listAt_drop]
    congr 1
    omega
  rw [← hconv]
  apply scanBucketAux_le bs be (spec.drop si) si m (j - si) hlen
  · rw [hconv]
    exact hbs
  · intro k hk
    rw [listAt_drop]
    exact hall (si + k) (by omega) (by omega)

/-- If no point of the spectrum lies in `[bucketStart, bucketEnd)`, the bucket
value stays at the accumulator. -/
theorem scanBucket_untouched (spec : List SpectrumPoint) (bs be : ℚ) (si : ℕ)
    (m : ℚ) (hno : ∀ p ∈ spec, ¬(bs ≤ p.t ∧ p.t < be)) :
    (scanBucket spec bs be si m).2 = m :=
  scanBucketAux_untouched bs be (spec.drop si) si m
    (fun p hp => hno p (List.drop_subset si spec hp))

/-- The peek-back guard never increases the index. -/
theorem nextScanIndex_le (spec : List SpectrumPoint) (be : ℚ) (si1 : ℕ) :
    nextScanIndex spec be si1 ≤ si1 := by
  unfold nextScanIndex
  split <;> omega

/-- The outer loop emits exactly `remaining` points. -/
theorem downsampleLoop_length (spec : List SpectrumPoint) (d ds : ℚ)
    (R b si : ℕ) : (downsampleLoop spec d ds R b si).length = R := by
  induction R generalizing b si with
  | zero => rfl
  | succ R ih => simp [downsampleLoop, ih]

/-- Shape of the `k`-th emitted point: it is bucket `b + k`'s midpoint paired
with the value of a scan of that bucket from some index. -/
theorem downsampleLoop_get (spec : List SpectrumPoint) (d ds : ℚ) (R : ℕ) :
    ∀ b si k, k < R →
      ∃ si', listAt (downsampleLoop spec d ds R b si) k ⟨0, 0⟩ =
        ⟨(((b + k : ℕ) : ℚ) * d + d / 2) / ds,
          (scanBucket spec (((b + k : ℕ) : ℚ) * d)
            (((b + k : ℕ) : ℚ) * d + d) si' 0).2⟩ := by
  induction R with
  | zero =>
    intro b si k hk
    omega
  | succ R ih =>
    intro b si k hk
    cases k with
    | zero =>
      refine ⟨si, ?_⟩
      simp [downsampleLoop, listAt]
    | succ k =>
      obtain ⟨si', h⟩ := ih (b + 1)
        (nextScanIndex spec ((b : ℚ) * d + d)
          (scanBucket spec ((b : ℚ) * d) ((b : ℚ) * d + d) si 0).1) k (by omega)
      refine ⟨si', ?_⟩
      have hcast : b + (k + 1) = (b + 1) + k := by omega
      rw [hcast]
      exact h

/-- Peak preservation along the outer loop: on a sorted spectrum, when every
index below the scan index was already below the current bucket's start, the
`k`-th emitted value dominates every point strictly inside bucket `b + k`. -/
theorem downsampleLoop_peak (spec : List SpectrumPoint) (d ds : ℚ)
    (hsort : sortedByT spec) (hd : 0 < d) (R : ℕ) :
    ∀ (b si k j : ℕ), k < R → si ≤ spec.length →
      (∀ j', j' < si → (listAt spec j' ⟨0, 0⟩).t < (b : ℚ) * d) →
      j < spec.length →
      ((b + k : ℕ) : ℚ) * d < (listAt spec j ⟨0, 0⟩).t →
      (listAt spec j ⟨0, 0⟩).t < ((b + k : ℕ) : ℚ) * d + d →
      (listAt spec j ⟨0, 0⟩).music ≤
        (listAt (downsampleLoop spec d ds R b si) k ⟨0, 0⟩).value := by
  induction R with
  | zero =>
    intro b si k j hk
    omega
  | succ R ih =>
    intro b si k j hk hsi hinv hj hlo hhi
    cases k with
    | zero =>
      simp only [Nat.add_zero] at hlo hhi
      have hsj : si ≤ j := by
        by_contra hcon
        push_neg at hcon
        exact absurd hlo (not_lt.mpr (le_of_lt (hinv j hcon)))
      have hval : (listAt (downsampleLoop spec d ds (R + 1) b si) 0
          ⟨0, 0⟩).value = (scanBucket spec ((b : ℚ) * d) ((b : ℚ) * d + d)
            si 0).2 := by
        simp [downsampleLoop, listAt]
      rw [hval]
      apply scanBucket_le spec _ _ si 0 j hsj hj (le_of_lt hlo)
      intro k2 _ hk2b
      calc (listAt spec k2 ⟨0, 0⟩).t
          ≤ (listAt spec j ⟨0, 0⟩).t := hsort j hj k2 hk2b
        _ < (b : ℚ) * d + d := hhi
    | succ k =>
      have hsi1le : (scanBucket spec ((b : ℚ) * d) ((b : ℚ) * d + d) si 0).1 ≤
          spec.length := scanBucket_fst_le spec _ _ si 0 hsi
      have hsi2le : nextScanIndex spec ((b : ℚ) * d + d)
          (scanBucket spec ((b : ℚ) * d) ((b : ℚ) * d + d) si 0).1 ≤
            spec.length :=
        le_trans (nextScanIndex_le _ _ _) hsi1le
      have hinv' : ∀ j', j' < nextScanIndex spec ((b : ℚ) * d + d)
          (scanBucket spec ((b : ℚ) * d) ((b : ℚ) * d + d) si 0).1 →
          (listAt spec j' ⟨0, 0⟩).t < ((b + 1 : ℕ) : ℚ) * d := by
        intro j' hj'
        have hj1 : j' < (scanBucket spec ((b : ℚ) * d) ((b : ℚ) * d + d)
            si 0).1 := lt_of_lt_of_le hj' (nextScanIndex_le _ _ _)
        have hbd : ((b + 1 : ℕ) : ℚ) * d = (b : ℚ) * d + d := by
          push_cast
          ring
        rw [hbd]
        by_cases hcase : j' < si
        · have := hinv j' hcase
          linarith
        · push_neg at hcase
          exact scanBucket_consumed spec _ _ si 0 j' hcase hj1
      have harith : b + (k + 1) = (b + 1) + k := by omega
      rw [harith] at hlo hhi
      exact ih (b + 1)
        (nextScanIndex spec ((b : ℚ) * d + d)
          (scanBucket spec ((b : ℚ) * d) ((b : ℚ) * d + d) si 0).1)
        k j (by omega) hsi2le hinv' hj hlo hhi

/-- Unfolding of `downsampleSpectrum` in the bucketed regime: for a positive
duration and `1 ≤ N < inputLength`, the bucket count is exactly `N` and the
bucket width `durSecs / N`. -/
theorem downsampleSpectrum_eq_loop (spec : List SpectrumPoint) (N : ℕ)
    (durSecs : ℚ) (hdur : 0 < durSecs) (hN : 1 ≤ N) (hlen : N < spec.length) :
    downsampleSpectrum spec (N : ℚ) durSecs =
      downsampleLoop spec (durSecs / (N : ℚ)) durSecs N 0 0 := by
  have hg1 : ¬(spec.length = 0 ∨ durSecs ≤ 0) := by
    push_neg
    exact ⟨by omega, hdur⟩
  have hg2 : ¬((spec.length : ℚ) ≤ (N : ℚ)) :=
    not_le.mpr (by exact_mod_cast hlen)
  unfold downsampleSpectrum
  rw [if_neg hg1, if_neg hg2]
  have h2 : max 1 ((N : ℤ)) = (N : ℤ) := max_eq_right (by exact_mod_cast hN)
  simp only [Int.floor_natCast, h2, Int.toNat_natCast, Int.cast_natCast]

/-- Claim C2: for a positive duration and a positive integer target `N`, the
downsampled output has exactly `min N inputLength` points; when
`inputLength ≤ N` the output is the input passed through with `t` normalized
to `x = t / durSecs` and `music` renamed to `value`. -/
theorem downsample_output_length (spec : List SpectrumPoint) (N : ℕ)
    (durSecs : ℚ) (hdur : 0 < durSecs) (hN : 1 ≤ N) :
    (downsampleSpectrum spec (N : ℚ) durSecs).length = min N spec.length ∧
      (spec.length ≤ N →
        downsampleSpectrum spec (N : ℚ) durSecs =
          spec.map (fun p => ⟨p.t / durSecs, p.music⟩)) := by
  by_cases hz : spec.length = 0
  · have hnil : spec = [] := List.length_eq_zero.mp hz
    subst hnil
    exact ⟨by simp [downsampleSpectrum], fun _ => by simp [downsampleSpectrum]⟩
  · by_cases hle : spec.length ≤ N
    · have hpass : downsampleSpectrum spec (N : ℚ) durSecs =
          spec.map (fun p => ⟨p.t / durSecs, p.music⟩) := by
        unfold downsampleSpectrum
        rw [if_neg (by push_neg; exact ⟨hz, hdur⟩),
          if_pos (by exact_mod_cast hle)]
      constructor
      · rw [hpass, List.length_map]
        omega
      · intro _
        exact hpass
    · push_neg at hle
      rw [downsampleSpectrum_eq_loop spec N durSecs hdur hN hle]
      constructor
      · rw [downsampleLoop_length]
        omega
      · intro hcon
        omega

/-- Witness for C2 on a two-point spectrum with target 3 (passthrough regime). -/
theorem downsample_output_length_witness :
    (downsampleSpectrum [⟨0, 1⟩, ⟨3, 2⟩] ((3 : ℕ) : ℚ) 4).length =
        min 3 ([⟨0, 1⟩, ⟨3, 2⟩] : List SpectrumPoint).length ∧
      (([⟨0, 1⟩, ⟨3, 2⟩] : List SpectrumPoint).length ≤ 3 →
        downsampleSpectrum [⟨0, 1⟩, ⟨3, 2⟩] ((3 : ℕ) : ℚ) 4 =
          ([⟨0, 1⟩, ⟨3, 2⟩] : List SpectrumPoint).map
            (fun p => ⟨p.t / 4, p.music⟩)) :=
  downsample_output_length [⟨0, 1⟩, ⟨3, 2⟩] 3 4 (by decide) (by decide)

/-- Claim C1: on a sorted spectrum spanning `[0, durSecs]` with
`inputLength > N ≥ 1` and `durSecs > 0`, the output value of bucket `b` is
at least the `music` value of every input point whose `t` lies strictly
inside bucket `b`'s time range
`(b * durSecs/N, b * durSecs/N + durSecs/N)`. -/
theorem downsample_peak_preservation (spec : List SpectrumPoint) (N : ℕ)
    (durSecs : ℚ) (b j : ℕ) (hsort : sortedByT spec)
    (hrange : ∀ p ∈ spec, 0 ≤ p.t ∧ p.t ≤ durSecs)
    (hdur : 0 < durSecs) (hN : 1 ≤ N) (hlen : N < spec.length) (hb : b < N)
    (hj : j < spec.length)
    (hlo : (b : ℚ) * (durSecs / (N : ℚ)) < (listAt spec j ⟨0, 0⟩).t)
    (hhi : (listAt spec j ⟨0, 0⟩).t <
      (b : ℚ) * (durSecs / (N : ℚ)) + durSecs / (N : ℚ)) :
    (listAt spec j ⟨0, 0⟩).music ≤
      (listAt (downsampleSpectrum spec (N : ℚ) durSecs) b ⟨0, 0⟩).value := by
  rw [downsampleSpectrum_eq_loop spec N durSecs hdur hN hlen]
  have hNQ : (0 : ℚ) < (N : ℚ) := by exact_mod_cast hN
  have hd : 0 < durSecs / (N : ℚ) := div_pos hdur hNQ
  apply downsampleLoop_peak spec (durSecs / (N : ℚ)) durSecs hsort hd N 0 0 b
    j hb (Nat.zero_le _) (fun j' hj' => absurd hj' (Nat.not_lt_zero j')) hj
  · simpa using hlo
  · simpa using hhi

/-- Witness for C1: three sorted points over 4 seconds, 2 buckets; the point
`(1, 3)` lies strictly inside bucket 0's range `(0, 2)`. -/
theorem downsample_peak_preservation_witness :
    (listAt ([⟨0, 1⟩, ⟨1, 3⟩, ⟨3, 2⟩] : List SpectrumPoint) 1 ⟨0, 0⟩).music ≤
      (listAt (downsampleSpectrum ([⟨0, 1⟩, ⟨1, 3⟩, ⟨3, 2⟩] :
        List SpectrumPoint) ((2 : ℕ) : ℚ) 4) 0 ⟨0, 0⟩).value :=
  downsample_peak_preservation [⟨0, 1⟩, ⟨1, 3⟩, ⟨3, 2⟩] 2 4 0 1 (by decide)
    (by decide) (by decide) (by decide) (by decide) (by decide) (by decide)
    (by norm_num [listAt]) (by norm_num [listAt])

/-- Claim C10: in the bucketed regime (`inputLength > N ≥ 1`,
`durSecs > 0`), a bucket whose time range `[b*w, b*w + w)` (with
`w = durSecs/N`) contains no input point produces output value exactly 0. -/
theorem downsample_empty_bucket_zero (spec : List SpectrumPoint) (N : ℕ)
    (durSecs : ℚ) (b : ℕ) (hdur : 0 < durSecs) (hN : 1 ≤ N)
    (hlen : N < spec.length) (hb : b < N)
    (hempty : ∀ p ∈ spec,
      ¬((b : ℚ) * (durSecs / (N : ℚ)) ≤ p.t ∧
        p.t < (b : ℚ) * (durSecs / (N : ℚ)) + durSecs / (N : ℚ))) :
    (listAt (downsampleSpectrum spec (N : ℚ) durSecs) b ⟨0, 0⟩).value = 0 := by
  rw [downsampleSpectrum_eq_loop spec N durSecs hdur hN hlen]
  obtain ⟨si', h⟩ :=
    downsampleLoop_get spec (durSecs / (N : ℚ)) durSecs N 0 0 b hb
  rw [h]
  exact scanBucket_untouched spec _ _ si' 0
    (fun p hp => by simpa using hempty p hp)

/-- Witness for C10: three points all below `t = 2`, 2 buckets over 4
seconds; bucket 1 (range `[2, 4)`) is empty and yields 0. -/
theorem downsample_empty_bucket_zero_witness :
    (listAt (downsampleSpectrum ([⟨0, 1⟩, ⟨1, 3⟩, ⟨1, 2⟩] :
        List SpectrumPoint) ((2 : ℕ) : ℚ) 4) 1 ⟨0, 0⟩).value = 0 :=
  downsample_empty_bucket_zero [⟨0, 1⟩, ⟨1, 3⟩, ⟨1, 2⟩] 2 4 1 (by decide)
    (by decide) (by decide) (by decide)
    (by
      intro p hp
      simp only [List.mem_cons, List.not_mem_nil, or_false] at hp
      rcases hp with h | h | h <;> subst h <;> norm_num)
